import Mathlib

/-!
Verification of the mapsims tutorial notebooks.

The notebooks are linear sequences of calls into external scientific
libraries (healpy, numpy, mapsims, pixell).  This file gives a shallow
embedding of the notebook-level computations: path templating for the
simulation releases, hitmap and mask application, masked-array
co-addition, the polarization amplitude, the sky-fraction correction of
power spectra, the file-access trace, and error propagation of the map
reads.  Maps are embedded as lists of rationals (reals where a square
root is taken), pixel indices as naturals, paths as strings or
character lists.  Definitions come first, then the theorems about
them.
-/

namespace Mapsims

/-! ## Decimal formatting: Python str.format with the 04d conversion -/

/-- Decimal digits of a natural number, most significant first, as
produced by Python str formatting of a nonnegative int. -/
def natToDigits (n : Nat) : List Nat :=
  if h : n < 10 then [n] else natToDigits (n / 10) ++ [n % 10]
termination_by n
decreasing_by omega

/-- Left-pad a digit list with zeros to a minimum width of 4, the
semantics of the 04d format conversion. -/
def pad4 (ds : List Nat) : List Nat :=
  List.replicate (4 - ds.length) 0 ++ ds

/-- Rendering of a plain replacement field: the decimal representation
of the integer. -/
def natRepr (n : Nat) : String :=
  String.mk ((natToDigits n).map Nat.digitChar)

/-- Rendering of a replacement field with the 04d conversion. -/
def pyFormat04d (n : Nat) : String :=
  String.mk ((pad4 (natToDigits n)).map Nat.digitChar)

/-- Spec-side rendering of NNNN: the number written with exactly four
decimal digits, most significant first. -/
def specPad4 (n : Nat) : String :=
  String.mk ([n / 1000 % 10, n / 100 % 10, n / 10 % 10, n % 10].map Nat.digitChar)

/-! ## Release-file path templates

Embedding of the notebook cells that call str.format on
filename_template with the nside, content, num, telescope, tube, band,
split and nsplits fields: the signal template of notebooks 1 and 2, and
the noise template of notebook 3.  The format call substitutes each
replacement field into the template, rendering num with the 04d
conversion and the remaining integers plainly. -/

/-- Signal-release path built by the notebooks from the template of
notebooks 1, 2 and 3. -/
def signal_release_path (nside : Nat) (content telescope band : String) (num : Nat) :
    String :=
  natRepr nside ++ "/" ++ content ++ "/" ++ pyFormat04d num ++ "/simonsobs_" ++
    content ++ "_uKCMB_" ++ telescope ++ band ++ "_nside" ++ natRepr nside ++
    "_" ++ pyFormat04d num ++ ".fits"

/-- Noise-release path built by notebook 3 from its template. -/
def noise_release_path (nside : Nat) (content tube band : String)
    (num split nsplits : Nat) : String :=
  content ++ "/" ++ pyFormat04d num ++ "/simonsobs_" ++ content ++ "_uKCMB_" ++
    tube ++ "_" ++ band ++ "_nside" ++ natRepr nside ++ "_" ++ pyFormat04d num ++
    "_" ++ natRepr split ++ "_of_" ++ natRepr nsplits ++ ".fits"

/-- Spec-side signal-release path: the on-disk naming convention with
project simonsobs, where NNNN stands for num written with exactly four
digits. -/
def signal_release_path_spec (nside : Nat) (content telescope band : String)
    (num : Nat) : String :=
  natRepr nside ++ "/" ++ content ++ "/" ++ specPad4 num ++ "/simonsobs_" ++
    content ++ "_uKCMB_" ++ telescope ++ band ++ "_nside" ++ natRepr nside ++
    "_" ++ specPad4 num ++ ".fits"

/-- Spec-side noise-release path with NNNN written with exactly four
digits. -/
def noise_release_path_spec (nside : Nat) (content tube band : String)
    (num split nsplits : Nat) : String :=
  content ++ "/" ++ specPad4 num ++ "/simonsobs_" ++ content ++ "_uKCMB_" ++
    tube ++ "_" ++ band ++ "_nside" ++ natRepr nside ++ "_" ++ specPad4 num ++
    "_" ++ natRepr split ++ "_of_" ++ natRepr nsplits ++ ".fits"

/-! ## Sky-fraction correction of the noise power spectra

Embedding of the notebook 3 cells
sky_fraction = (hitmaps[0] > 0).sum() / len(hitmaps[0])
cls = [hp.anafast(m * hitmaps[0], iter=0) / np.mean(hitmaps[0]**2) / sky_fraction for m in maps]
and of the notebook 6 cells building the mask from the inverse
variance and the correction factor w2.  The spherical-harmonic
transform itself (hp.anafast, hp.alm2cl of cs.map2alm) is an external
library call and is kept abstract. -/

/-- The numpy boolean-sum expression computing the observed sky fraction,
from notebook 3: the hitmap entries greater than zero are counted as ones
and the count is divided by the number of pixels. -/
def sky_fraction (hits : List ℚ) : ℚ :=
  ((hits.map (fun x => if 0 < x then (1 : ℚ) else 0)).sum) / (hits.length : ℚ)

/-- Embedding of np.mean: the sum of the entries divided by their
number. -/
def npMean (l : List ℚ) : ℚ :=
  l.sum / (l.length : ℚ)

/-- One corrected spectrum value of notebook 3: the abstract anafast of
the hitmap-weighted map, divided by the mean of the squared hitmap and
by the sky fraction. -/
def cls_corrected (anafast : List ℚ → ℚ) (m hits : List ℚ) : ℚ :=
  anafast (List.zipWith (fun a b => a * b) m hits) /
    npMean (hits.map (fun x => x ^ 2)) / sky_fraction hits

/-- Embedding of the notebook 6 mask construction
mask = ivar1*0 + 1 followed by mask[ivar1<=0] = 0: every pixel starts at
one and the pixels with nonpositive inverse variance are reset to
zero. -/
def maskFromIvar (ivar : List ℚ) : List ℚ :=
  ivar.map (fun v => if v ≤ 0 then 0 else 1)

/-- Embedding of the notebook 6 correction factor
w2 = np.sum((mask**2)*pmap) / np.pi / 4, with the float np.pi kept as a
rational parameter. -/
def w2 (ivar pixarea : List ℚ) (pi : ℚ) : ℚ :=
  (List.zipWith (fun mv pa => mv ^ 2 * pa) (maskFromIvar ivar) pixarea).sum / pi / 4

/-- The corrected CAR spectrum value of notebook 6:
cls = hp.alm2cl(alm) / w2, with the alm2cl result kept abstract. -/
def cls_car (alm2cl : ℚ) (ivar pixarea : List ℚ) (pi : ℚ) : ℚ :=
  alm2cl / w2 ivar pixarea pi

/-- Spec-side sky fraction: the number of pixels with positive hit count
divided by the total number of pixels. -/
def sky_fraction_spec (hits : List ℚ) : ℚ :=
  ((hits.countP (fun x => decide (0 < x)) : Nat) : ℚ) / (hits.length : ℚ)

/-! ## Mask and hitmap application

Embedding of the notebook 1 cells
m_P_masked = m_P.copy(); m_P_masked[np.logical_not(mask)] = hp.UNSEEN
m_P_survey = m_P.copy(); m_P_survey[hitmaps[0] == 0] = hp.UNSEEN
and of the notebook 2 cell each[:, hitmaps[0] == 0] = hp.UNSEEN,
which acts on each Stokes component separately.  A multi-component map
is embedded as its per-component pixel lists. -/

/-- The healpy sentinel value hp.UNSEEN marking unobserved pixels,
-1.6375e30. -/
def UNSEEN : ℚ :=
  -16375 * 10 ^ 26

/-- Scanning-strategy cut: the boolean-indexed assignment
m[hits == 0] = hp.UNSEEN sets the pixels with hit count zero to the
sentinel and leaves the others alone. -/
def applyHitcut (m hits : List ℚ) : List ℚ :=
  List.zipWith (fun v h => if h = 0 then UNSEEN else v) m hits

/-- Galactic-mask application: the boolean-indexed assignment
m[np.logical_not(mask)] = hp.UNSEEN sets the pixels where the mask is
false to the sentinel and leaves the others alone. -/
def applyGalacticMask (m : List ℚ) (mask : List Bool) : List ℚ :=
  List.zipWith (fun v b => if b then v else UNSEEN) m mask

/-! ## Masked-array co-addition

Embedding of the notebook 2 cells
maps = [hp.ma(hp.read_map(filename, (0,1,2))) for filename in filenames]
and for each in maps: each += dust, and of the notebook 3 cell
maps = [each + foregrounds_cmb for each in maps].  A healpy masked
array carries per pixel a value and a mask flag; the numpy
masked-array addition of a plain array adds pixelwise where the flag is
clear and leaves flagged pixels untouched. -/

/-- One pixel of a masked array: the stored value and the mask flag. -/
structure MPix where
  val : ℚ
  masked : Bool
deriving DecidableEq

/-- Embedding of hp.ma: every pixel keeps its value and is flagged
exactly when the value is the UNSEEN sentinel. -/
def hp_ma (m : List ℚ) : List MPix :=
  m.map (fun v => ⟨v, decide (v = UNSEEN)⟩)

/-- Embedding of masked-array addition of a plain array, as invoked by
each += dust and each + foregrounds_cmb: unflagged pixels receive the
sum, flagged pixels are returned untouched. -/
def ma_add (m : List MPix) (d : List ℚ) : List MPix :=
  List.zipWith (fun px x => if px.masked then px else ⟨px.val + x, px.masked⟩) m d

/-! ## Copy-before-mask: heap model of the notebook 1 masking cells

The two masked displays are built from explicit copies of the
polarization-amplitude array.  Arrays are modelled as slots of a small
heap so that the copy is visible: slot 0 holds m_P, each copy allocates
a fresh slot, and the boolean-indexed assignment mutates only its own
slot. -/

/-- Run of the notebook 1 masking cells on a heap of arrays: slot 0
holds m_P; m_P_masked = m_P.copy() allocates slot 1, which is then
masked in place with the galactic mask; m_P_survey = m_P.copy()
allocates slot 2, which is then cut in place with the hitmap. -/
def nb1MaskingRun (mP : List ℚ) (mask : List Bool) (hits : List ℚ) :
    List (List ℚ) :=
  let heap0 := [mP]
  let heap1 := heap0 ++ [heap0.getD 0 []]
  let heap2 := heap1.set 1 (applyGalacticMask (heap1.getD 1 []) mask)
  let heap3 := heap2 ++ [heap2.getD 0 []]
  heap3.set 2 (applyHitcut (heap3.getD 2 []) hits)

/-! ## Polarization amplitude

Embedding of the notebook 1 cell m_P = np.sqrt(m[1]**2 + m[2]**2),
where m is the three-component Stokes map read by hp.read_map with
field tuple (0,1,2).  A three-component map is a function from the
component index and the pixel to the value; the float square root is
embedded as the real square root. -/

/-- The polarization-amplitude map of notebook 1, built pixelwise from
the Q and U components of a three-component Stokes map. -/
noncomputable def polAmplitude (m : Fin 3 → Nat → ℝ) (p : Nat) : ℝ :=
  Real.sqrt (m 1 p ^ 2 + m 2 p ^ 2)

/-- A concrete all-zero three-component map, used to instantiate the
polarization-amplitude theorem. -/
def zeroStokes : Fin 3 → Nat → ℝ :=
  fun _ _ => 0

/-! ## File-access trace of the notebooks

The notebooks touch the shared release tree only through hp.read_map
and shell directory listings; the only write the notebooks cause is the
hitmap cache of SONoiseSimulator.get_hitmaps, which notebook 6
documents as a local on-disk cache outside the release tree.  Paths are
embedded as character lists; the trace lists every release access of
notebooks 1, 2 and 3 together with the cache write. -/

/-- Kinds of filesystem access. -/
inductive FSKind
  | read
  | write
  | create
  | delete
deriving DecidableEq

/-- One filesystem access: a path and its kind. -/
structure FSEvent where
  path : List Char
  kind : FSKind

/-- The shared release tree at NERSC that all release folders of the
notebooks live under. -/
def releaseRoot : List Char :=
  "/project/projectdirs/sobs/v4_sims/mbs".data

/-- Release folder of the foreground simulations, notebooks 1, 2 and 3. -/
def fgFolder : List Char :=
  "/project/projectdirs/sobs/v4_sims/mbs/201906_highres_foregrounds_extragalactic_tophat".data

/-- Release folder of the lensed CMB realizations, notebook 2. -/
def cmbFolder : List Char :=
  "/project/projectdirs/sobs/v4_sims/mbs/201911_lensed_cmb".data

/-- Release folder of the noise simulations, notebook 3. -/
def noiseFolder : List Char :=
  "/project/projectdirs/sobs/v4_sims/mbs/202006_noise".data

/-- Path of the galactic mask read by notebook 1. -/
def maskPath : List Char :=
  "/project/projectdirs/sobs/v4_sims/mbs/201904_highres_foregrounds_equatorial/512/masks/mask_equatorial_pol_thr4p0_fsky0p71_ns512.fits".data

/-- A read access. -/
def readEvent (p : List Char) : FSEvent :=
  ⟨p, FSKind.read⟩

/-- Every release-tree path the notebooks read: the directory listings
and combined, cmb, dust and noise maps of notebooks 1, 2 and 3 at the
channel parameters in scope. -/
def notebookReadPaths (telescope tube band : String) (nside : Nat) :
    List (List Char) :=
  [fgFolder ++ "/512".data,
   fgFolder ++ ("/" ++ signal_release_path 512 "combined" telescope band 0).data,
   "/project/projectdirs/sobs/v4_sims/mbs/201904_highres_foregrounds_equatorial/512/masks".data,
   maskPath] ++
  ((List.range 10).map fun num =>
    cmbFolder ++ ("/" ++ signal_release_path 512 "cmb" telescope band num).data) ++
  [fgFolder ++ ("/" ++ signal_release_path 512 "dust" telescope band 0).data,
   noiseFolder ++ ("/" ++ noise_release_path nside "noise" tube band 0 1 1).data] ++
  ((List.range 4).map fun k =>
    noiseFolder ++ ("/" ++ noise_release_path nside "noise" tube band 0 (k + 1) 4).data) ++
  [fgFolder ++ ("/" ++ signal_release_path 512 "combined" telescope band 0).data]

/-- The filesystem trace of the notebooks: every release access is one
of the reads above; the SONoiseSimulator hitmap cache adds one file
creation at its local cache path. -/
def notebookFileEvents (telescope tube band : String) (nside : Nat)
    (cachePath : List Char) : List FSEvent :=
  (notebookReadPaths telescope tube band nside).map readEvent ++
    [⟨cachePath, FSKind.create⟩]

/-! ## Error propagation of the map reads

The notebooks define no error handling: the list comprehensions
maps = [hp.read_map(filename, (0,1,2)) for filename in filenames]
evaluate the reads left to right and the first exception raised by the
library aborts the cell.  A fallible library read is embedded as an
Except value and the comprehension as a fold that stops at the first
error. -/

/-- Embedding of a call of hp.read_map against an abstract filesystem:
the notebook passes the path straight to the library and adds no
handling of its own. -/
def read_map (fs : List Char → Except String (List ℚ)) (path : List Char) :
    Except String (List ℚ) :=
  fs path

/-- Embedding of the read comprehension of notebooks 2 and 3: the reads
run left to right and the first library error aborts the cell with that
very error. -/
def readAllMaps (fs : List Char → Except String (List ℚ)) :
    List (List Char) → Except String (List (List ℚ))
  | [] => Except.ok []
  | p :: rest =>
    match read_map fs p with
    | Except.error e => Except.error e
    | Except.ok v =>
      match readAllMaps fs rest with
      | Except.error e => Except.error e
      | Except.ok vs => Except.ok (v :: vs)

/-! ## Theorems -/

theorem natToDigits_of_lt {n : Nat} (h : n < 10) : natToDigits n = [n] := by
  rw [natToDigits]
  simp [h]

theorem natToDigits_of_ge {n : Nat} (h : ¬ n < 10) :
    natToDigits n = natToDigits (n / 10) ++ [n % 10] := by
  rw [natToDigits]
  simp [h]

theorem pad4_natToDigits {n : Nat} (h : n < 10000) :
    pad4 (natToDigits n) = [n / 1000 % 10, n / 100 % 10, n / 10 % 10, n % 10] := by
  by_cases h1 : n < 10
  · rw [natToDigits_of_lt h1]
    simp only [pad4, List.length_cons, List.length_nil]
    simp [List.replicate]
    omega
  · by_cases h2 : n < 100
    · rw [natToDigits_of_ge h1, natToDigits_of_lt (show n / 10 < 10 by omega)]
      simp only [pad4, List.length_append, List.length_cons, List.length_nil]
      simp [List.replicate]
      omega
    · by_cases h3 : n < 1000
      · rw [natToDigits_of_ge h1, natToDigits_of_ge (show ¬ n / 10 < 10 by omega),
          natToDigits_of_lt (show n / 10 / 10 < 10 by omega)]
        simp only [pad4, List.length_append, List.length_cons, List.length_nil]
        simp [List.replicate]
        omega
      · rw [natToDigits_of_ge h1, natToDigits_of_ge (show ¬ n / 10 < 10 by omega),
          natToDigits_of_ge (show ¬ n / 10 / 10 < 10 by omega),
          natToDigits_of_lt (show n / 10 / 10 / 10 < 10 by omega)]
        simp only [pad4, List.length_append, List.length_cons, List.length_nil]
        simp [List.replicate]
        omega

theorem pyFormat04d_eq_specPad4 {n : Nat} (h : n < 10000) :
    pyFormat04d n = specPad4 n := by
  unfold pyFormat04d specPad4
  rw [pad4_natToDigits h]

/-- C1: for every nside, content, telescope, tube, band and every num with
num < 10000, the signal-release path formatted by the notebooks equals the
naming convention of the spec with project simonsobs and NNNN the
four-digit zero-padded num, and likewise for the noise-release path. -/
theorem C1_release_paths_follow_naming_convention
    (nside : Nat) (content telescope tube band : String)
    (num split nsplits : Nat) (h : num < 10000) :
    signal_release_path nside content telescope band num =
      signal_release_path_spec nside content telescope band num ∧
    noise_release_path nside content tube band num split nsplits =
      noise_release_path_spec nside content tube band num split nsplits := by
  unfold signal_release_path signal_release_path_spec
    noise_release_path noise_release_path_spec
  rw [pyFormat04d_eq_specPad4 h]
  exact ⟨rfl, rfl⟩

/-- Witness for C1 at the concrete inputs of the notebooks: nside 512,
content combined, telescope sa, tube ST2, band UHF1, num 0, split 1 of 4. -/
theorem C1_release_paths_follow_naming_convention_witness :
    0 < 10000 ∧
    (signal_release_path 512 "combined" "sa" "UHF1" 0 =
      signal_release_path_spec 512 "combined" "sa" "UHF1" 0 ∧
    noise_release_path 512 "combined" "ST2" "UHF1" 0 1 4 =
      noise_release_path_spec 512 "combined" "ST2" "UHF1" 0 1 4) :=
  ⟨by decide,
   C1_release_paths_follow_naming_convention 512 "combined" "sa" "ST2" "UHF1" 0 1 4
     (by decide)⟩

theorem indicator_sum_eq_countP (hits : List ℚ) :
    (hits.map (fun x => if 0 < x then (1 : ℚ) else 0)).sum =
      ((hits.countP (fun x => decide (0 < x)) : Nat) : ℚ) := by
  induction hits with
  | nil => simp
  | cons a t ih =>
    by_cases ha : 0 < a <;>
      simp [List.countP_cons, ih, ha] <;> push_cast <;> ring

theorem sky_fraction_eq_spec (hits : List ℚ) :
    sky_fraction hits = sky_fraction_spec hits := by
  unfold sky_fraction sky_fraction_spec
  rw [indicator_sum_eq_countP]

theorem list_sum_pos_of_exists_pos {l : List ℚ} (hnn : ∀ x ∈ l, 0 ≤ x)
    (hex : ∃ x ∈ l, 0 < x) : 0 < l.sum := by
  induction l with
  | nil => simp at hex
  | cons a t ih =>
    rcases hex with ⟨x, hx, hxpos⟩
    rcases List.mem_cons.mp hx with hxa | hxt
    · subst hxa
      exact add_pos_of_pos_of_nonneg hxpos
        (List.sum_nonneg fun y hy => hnn y (List.mem_cons_of_mem _ hy))
    · exact add_pos_of_nonneg_of_pos (hnn a (List.mem_cons_self _ _))
        (ih (fun y hy => hnn y (List.mem_cons_of_mem _ hy)) ⟨x, hxt, hxpos⟩)

/-- C2: the corrected spectrum of notebook 3 equals the anafast of the
hitmap-weighted map divided by the mean squared hitmap and by the sky
fraction, where the sky fraction is the number of hit pixels over the
total number of pixels, lies between 0 and 1, and equals 1 exactly when
every pixel is hit; and in the CAR notebook the corrected spectrum
divides the transform by w2, the sum of the squared indicator mask
times the pixel area over four pi, the mask being 1 exactly on the
pixels with positive inverse variance. -/
theorem C2_sky_fraction_correction
    (anafast : List ℚ → ℚ) (m hits ivar pixarea : List ℚ) (pi s : ℚ)
    (hne : hits ≠ []) :
    cls_corrected anafast m hits =
      anafast (List.zipWith (fun a b => a * b) m hits) /
        npMean (hits.map (fun x => x ^ 2)) / sky_fraction_spec hits ∧
    0 ≤ sky_fraction hits ∧ sky_fraction hits ≤ 1 ∧
    (sky_fraction hits = 1 ↔ ∀ x ∈ hits, 0 < x) ∧
    maskFromIvar ivar = ivar.map (fun v => if 0 < v then 1 else 0) ∧
    cls_car s ivar pixarea pi =
      s / ((List.zipWith (fun mv pa => mv ^ 2 * pa) (maskFromIvar ivar)
        pixarea).sum / (4 * pi)) := by
  have hlen : 0 < (hits.length : ℚ) := by
    exact_mod_cast List.length_pos.mpr hne
  refine ⟨?_, ?_, ?_, ?_, ?_, ?_⟩
  · unfold cls_corrected
    rw [sky_fraction_eq_spec]
  · rw [sky_fraction_eq_spec]
    unfold sky_fraction_spec
    positivity
  · rw [sky_fraction_eq_spec]
    unfold sky_fraction_spec
    rw [div_le_one hlen]
    exact_mod_cast List.countP_le_length _
  · rw [sky_fraction_eq_spec]
    unfold sky_fraction_spec
    rw [div_eq_one_iff_eq (ne_of_gt hlen)]
    constructor
    · intro hcount x hx
      have hc : hits.countP (fun x => decide (0 < x)) = hits.length := by
        exact_mod_cast hcount
      have := List.countP_eq_length.mp hc x hx
      simpa using this
    · intro hall
      have hc : hits.countP (fun x => decide (0 < x)) = hits.length :=
        List.countP_eq_length.mpr fun a ha => by simpa using hall a ha
      exact_mod_cast hc
  · unfold maskFromIvar
    have hfun : (fun v : ℚ => if v ≤ 0 then (0 : ℚ) else 1) =
        (fun v : ℚ => if 0 < v then (1 : ℚ) else 0) := by
      funext v
      rcases le_or_lt v 0 with hv | hv
      · simp [hv, not_lt.mpr hv]
      · simp [hv, not_le.mpr hv]
    rw [hfun]
  · unfold cls_car w2
    rw [div_div, mul_comm]

/-- Witness for C2 at a concrete two-pixel hitmap. -/
theorem C2_sky_fraction_correction_witness :
    (([1, 0] : List ℚ) ≠ []) ∧
    (cls_corrected (fun l => l.sum) [2, 4] [1, 0] =
      (fun l : List ℚ => l.sum) (List.zipWith (fun a b => a * b) [2, 4] [1, 0]) /
        npMean (([1, 0] : List ℚ).map (fun x => x ^ 2)) / sky_fraction_spec [1, 0] ∧
    0 ≤ sky_fraction [1, 0] ∧ sky_fraction [1, 0] ≤ 1 ∧
    (sky_fraction [1, 0] = 1 ↔ ∀ x ∈ ([1, 0] : List ℚ), 0 < x) ∧
    maskFromIvar [3, -1] = ([3, -1] : List ℚ).map (fun v => if 0 < v then 1 else 0) ∧
    cls_car 5 [3, -1] [1, 1] 3 =
      5 / ((List.zipWith (fun mv pa => mv ^ 2 * pa) (maskFromIvar [3, -1])
        [1, 1]).sum / (4 * 3))) :=
  ⟨by decide,
   C2_sky_fraction_correction (fun l => l.sum) [2, 4] [1, 0] [3, -1] [1, 1] 3 5
     (by decide)⟩

/-- C3 as stated is false: the corrected spectrum is not the bare result
of the single external anafast call; at the concrete hitmap [1, 0] and
map [2, 4] the notebook arithmetic changes the value. -/
theorem C3_counterexample :
    cls_corrected (fun l => l.sum) [2, 4] [1, 0] ≠
      (fun l : List ℚ => l.sum) (List.zipWith (fun a b => a * b) [2, 4] [1, 0]) := by
  norm_num [cls_corrected, sky_fraction, npMean]

/-- C3 amended: every corrected power spectrum is a single external
transform call followed by correction arithmetic computed in notebook
code: the HEALPIX notebook divides the anafast result by the mean
squared hitmap times the sky fraction, and the CAR notebook divides the
alm2cl result by the notebook-computed w2. -/
theorem C3_correction_is_notebook_arithmetic
    (anafast : List ℚ → ℚ) (m hits ivar pixarea : List ℚ) (pi s : ℚ) :
    cls_corrected anafast m hits =
      anafast (List.zipWith (fun a b => a * b) m hits) /
        (npMean (hits.map (fun x => x ^ 2)) * sky_fraction hits) ∧
    cls_car s ivar pixarea pi = s / w2 ivar pixarea pi := by
  constructor
  · unfold cls_corrected
    rw [div_div]
  · rfl

/-- C10: with at least one hit pixel both divisors of the correction are
strictly positive, and with an all-zero hitmap both divisors vanish, so
the correction divides by zero. -/
theorem C10_divisors_positive_iff_some_hit (hits : List ℚ) :
    ((∃ x ∈ hits, 0 < x) →
      0 < sky_fraction hits ∧ 0 < npMean (hits.map (fun x => x ^ 2))) ∧
    ((∀ x ∈ hits, x = 0) →
      sky_fraction hits = 0 ∧ npMean (hits.map (fun x => x ^ 2)) = 0) := by
  constructor
  · rintro ⟨x, hx, hxpos⟩
    have hne : hits ≠ [] := by
      intro hnil
      rw [hnil] at hx
      simp at hx
    have hlen : 0 < (hits.length : ℚ) := by
      exact_mod_cast List.length_pos.mpr hne
    constructor
    · rw [sky_fraction_eq_spec]
      unfold sky_fraction_spec
      apply div_pos _ hlen
      have : 0 < hits.countP (fun x => decide (0 < x)) :=
        List.countP_pos.mpr ⟨x, hx, by simpa using hxpos⟩
      exact_mod_cast this
    · unfold npMean
      apply div_pos
      · apply list_sum_pos_of_exists_pos
        · intro y hy
          rcases List.mem_map.mp hy with ⟨z, _, rfl⟩
          positivity
        · exact ⟨x ^ 2, List.mem_map.mpr ⟨x, hx, rfl⟩, by positivity⟩
      · simpa using hlen
  · intro hall
    constructor
    · unfold sky_fraction
      rw [List.sum_eq_zero, zero_div]
      intro y hy
      rcases List.mem_map.mp hy with ⟨z, hz, rfl⟩
      simp [hall z hz]
    · unfold npMean
      rw [List.sum_eq_zero, zero_div]
      intro y hy
      rcases List.mem_map.mp hy with ⟨z, hz, rfl⟩
      simp [hall z hz]

/-- Witness for C10: the branch with a hit pixel at hitmap [1, 0] and the
all-zero branch at hitmap [0, 0]. -/
theorem C10_divisors_positive_iff_some_hit_witness :
    ((∃ x ∈ ([1, 0] : List ℚ), 0 < x) ∧
      0 < sky_fraction [1, 0] ∧ 0 < npMean (([1, 0] : List ℚ).map (fun x => x ^ 2))) ∧
    ((∀ x ∈ ([0, 0] : List ℚ), x = 0) ∧
      sky_fraction [0, 0] = 0 ∧ npMean (([0, 0] : List ℚ).map (fun x => x ^ 2)) = 0) :=
  ⟨⟨⟨1, by decide, by decide⟩,
    (C10_divisors_positive_iff_some_hit [1, 0]).1 ⟨1, by decide, by decide⟩⟩,
   ⟨by decide,
    (C10_divisors_positive_iff_some_hit [0, 0]).2 (by decide)⟩⟩

/-- C4: the scanning-strategy cut sets exactly the pixels with hit count
zero to UNSEEN and keeps every pixel with positive hit count unchanged,
and the galactic mask sets exactly the pixels where the mask is false to
UNSEEN and keeps every pixel where the mask is true unchanged. -/
theorem C4_masking_flags_exactly_unobserved_pixels
    (m hits : List ℚ) (mask : List Bool) (p : Nat)
    (hm : p < m.length) (hh : p < hits.length) (hk : p < mask.length) :
    ((hits.get ⟨p, hh⟩ = 0 → (applyHitcut m hits).getD p 0 = UNSEEN) ∧
     (0 < hits.get ⟨p, hh⟩ → (applyHitcut m hits).getD p 0 = m.get ⟨p, hm⟩)) ∧
    ((mask.get ⟨p, hk⟩ = false → (applyGalacticMask m mask).getD p 0 = UNSEEN) ∧
     (mask.get ⟨p, hk⟩ = true → (applyGalacticMask m mask).getD p 0 = m.get ⟨p, hm⟩)) := by
  have hcut : p < (applyHitcut m hits).length := by
    simpa [applyHitcut] using ⟨hm, hh⟩
  have hgal : p < (applyGalacticMask m mask).length := by
    simpa [applyGalacticMask] using ⟨hm, hk⟩
  rw [List.getD_eq_getElem _ _ hcut, List.getD_eq_getElem _ _ hgal]
  simp only [List.get_eq_getElem]
  constructor
  · constructor
    · intro h0
      simp [applyHitcut, List.getElem_zipWith, h0]
    · intro hpos
      have hne : hits[p] ≠ 0 := ne_of_gt hpos
      simp [applyHitcut, List.getElem_zipWith, hne]
  · constructor
    · intro hf
      simp [applyGalacticMask, List.getElem_zipWith, hf]
    · intro ht
      simp [applyGalacticMask, List.getElem_zipWith, ht]

/-- Witness for C4 at pixel 1 of a three-pixel map. -/
theorem C4_masking_flags_exactly_unobserved_pixels_witness :
    (1 < ([5, 6, 7] : List ℚ).length ∧ 1 < ([2, 0, 3] : List ℚ).length ∧
      1 < ([true, false, true] : List Bool).length) ∧
    ((([2, 0, 3] : List ℚ).get ⟨1, by decide⟩ = 0 →
        (applyHitcut [5, 6, 7] [2, 0, 3]).getD 1 0 = UNSEEN) ∧
     (0 < ([2, 0, 3] : List ℚ).get ⟨1, by decide⟩ →
        (applyHitcut [5, 6, 7] [2, 0, 3]).getD 1 0 =
          ([5, 6, 7] : List ℚ).get ⟨1, by decide⟩)) ∧
    ((([true, false, true] : List Bool).get ⟨1, by decide⟩ = false →
        (applyGalacticMask [5, 6, 7] [true, false, true]).getD 1 0 = UNSEEN) ∧
     (([true, false, true] : List Bool).get ⟨1, by decide⟩ = true →
        (applyGalacticMask [5, 6, 7] [true, false, true]).getD 1 0 =
          ([5, 6, 7] : List ℚ).get ⟨1, by decide⟩)) :=
  ⟨⟨by decide, by decide, by decide⟩,
   C4_masking_flags_exactly_unobserved_pixels [5, 6, 7] [2, 0, 3]
     [true, false, true] 1 (by decide) (by decide) (by decide)⟩

/-- C5: co-addition is pixelwise on every component list: after adding a
foreground component to a masked signal component, every unflagged pixel
holds the sum of the original signal value and the foreground value, and
every pixel flagged before the addition is returned untouched, its
sentinel value not overwritten; the hp.ma conversion flags exactly the
UNSEEN pixels. -/
theorem C5_coaddition_respects_masking
    (sig : List MPix) (dust mraw : List ℚ) (p : Nat)
    (hs : p < sig.length) (hd : p < dust.length) (hr : p < mraw.length) :
    ((sig.get ⟨p, hs⟩).masked = false →
      (ma_add sig dust).getD p ⟨0, false⟩ =
        ⟨(sig.get ⟨p, hs⟩).val + dust.get ⟨p, hd⟩, false⟩) ∧
    ((sig.get ⟨p, hs⟩).masked = true →
      (ma_add sig dust).getD p ⟨0, false⟩ = sig.get ⟨p, hs⟩) ∧
    (((hp_ma mraw).getD p ⟨0, false⟩).masked = true ↔ mraw.get ⟨p, hr⟩ = UNSEEN) := by
  have hma : p < (ma_add sig dust).length := by
    simpa [ma_add] using ⟨hs, hd⟩
  have hmp : p < (hp_ma mraw).length := by
    simpa [hp_ma] using hr
  rw [List.getD_eq_getElem _ _ hma, List.getD_eq_getElem _ _ hmp]
  simp only [List.get_eq_getElem]
  refine ⟨?_, ?_, ?_⟩
  · intro hflag
    simp [ma_add, List.getElem_zipWith, hflag]
  · intro hflag
    simp [ma_add, List.getElem_zipWith, hflag]
  · simp [hp_ma]

/-- Witness for C5 at pixel 0 of a two-pixel component. -/
theorem C5_coaddition_respects_masking_witness :
    (0 < ([⟨3, false⟩, ⟨UNSEEN, true⟩] : List MPix).length ∧
      0 < ([10, 20] : List ℚ).length ∧ 0 < ([UNSEEN, 4] : List ℚ).length) ∧
    ((([⟨3, false⟩, ⟨UNSEEN, true⟩] : List MPix).get ⟨0, by decide⟩).masked = false →
      (ma_add [⟨3, false⟩, ⟨UNSEEN, true⟩] [10, 20]).getD 0 ⟨0, false⟩ =
        ⟨(([⟨3, false⟩, ⟨UNSEEN, true⟩] : List MPix).get ⟨0, by decide⟩).val +
          ([10, 20] : List ℚ).get ⟨0, by decide⟩, false⟩) ∧
    ((([⟨3, false⟩, ⟨UNSEEN, true⟩] : List MPix).get ⟨0, by decide⟩).masked = true →
      (ma_add [⟨3, false⟩, ⟨UNSEEN, true⟩] [10, 20]).getD 0 ⟨0, false⟩ =
        ([⟨3, false⟩, ⟨UNSEEN, true⟩] : List MPix).get ⟨0, by decide⟩) ∧
    (((hp_ma [UNSEEN, 4]).getD 0 ⟨0, false⟩).masked = true ↔
      ([UNSEEN, 4] : List ℚ).get ⟨0, by decide⟩ = UNSEEN) :=
  ⟨⟨by decide, by decide, by decide⟩,
   C5_coaddition_respects_masking [⟨3, false⟩, ⟨UNSEEN, true⟩] [10, 20]
     [UNSEEN, 4] 0 (by decide) (by decide) (by decide)⟩

/-- C9: after both masking operations of notebook 1, the original
polarization-amplitude array in slot 0 still holds its original value at
every pixel, while slots 1 and 2 hold the galactic-masked and
survey-cut copies. -/
theorem C9_masking_never_mutates_source
    (mP : List ℚ) (mask : List Bool) (hits : List ℚ) :
    (nb1MaskingRun mP mask hits).getD 0 [] = mP ∧
    (nb1MaskingRun mP mask hits).getD 1 [] = applyGalacticMask mP mask ∧
    (nb1MaskingRun mP mask hits).getD 2 [] = applyHitcut mP hits := by
  simp [nb1MaskingRun, List.getD, List.set]

/-- C6: the polarization amplitude at every pixel is the square root of
the sum of the squared Q and U components, is nonnegative, vanishes
exactly when both Q and U vanish there, and does not depend on the
intensity component: two maps agreeing on components 1 and 2 have the
same amplitude. -/
theorem C6_polarization_amplitude_from_q_u
    (m m2 : Fin 3 → Nat → ℝ) (p : Nat) (h1 : m 1 = m2 1) (h2 : m 2 = m2 2) :
    polAmplitude m p = Real.sqrt (m 1 p ^ 2 + m 2 p ^ 2) ∧
    0 ≤ polAmplitude m p ∧
    (polAmplitude m p = 0 ↔ m 1 p = 0 ∧ m 2 p = 0) ∧
    polAmplitude m p = polAmplitude m2 p := by
  refine ⟨rfl, Real.sqrt_nonneg _, ?_, by unfold polAmplitude; rw [h1, h2]⟩
  unfold polAmplitude
  rw [Real.sqrt_eq_zero (by positivity),
    add_eq_zero_iff_of_nonneg (sq_nonneg _) (sq_nonneg _),
    sq_eq_zero_iff, sq_eq_zero_iff]

/-- Witness for C6 at the all-zero Stokes map and pixel 0. -/
theorem C6_polarization_amplitude_from_q_u_witness :
    (zeroStokes 1 = zeroStokes 1 ∧ zeroStokes 2 = zeroStokes 2) ∧
    (polAmplitude zeroStokes 0 = Real.sqrt (zeroStokes 1 0 ^ 2 + zeroStokes 2 0 ^ 2) ∧
    0 ≤ polAmplitude zeroStokes 0 ∧
    (polAmplitude zeroStokes 0 = 0 ↔ zeroStokes 1 0 = 0 ∧ zeroStokes 2 0 = 0) ∧
    polAmplitude zeroStokes 0 = polAmplitude zeroStokes 0) :=
  ⟨⟨rfl, rfl⟩,
   C6_polarization_amplitude_from_q_u zeroStokes zeroStokes 0 rfl rfl⟩

/-- C7: provided the hitmap cache lives outside the release tree, every
filesystem access of the notebooks whose path lies under the release
root is a read: no notebook operation creates, deletes or writes a file
of the release tree. -/
theorem C7_release_tree_accessed_read_only
    (telescope tube band : String) (nside : Nat) (cachePath : List Char)
    (hc : ¬ releaseRoot <+: cachePath) :
    ∀ e ∈ notebookFileEvents telescope tube band nside cachePath,
      releaseRoot <+: e.path → e.kind = FSKind.read := by
  intro e he hroot
  rcases List.mem_append.mp he with hl | hr
  · rcases List.mem_map.mp hl with ⟨p, _, rfl⟩
    rfl
  · rw [List.mem_singleton] at hr
    subst hr
    exact absurd hroot hc

/-- Witness for C7 with the cache in a user directory. -/
theorem C7_release_tree_accessed_read_only_witness :
    (¬ releaseRoot <+: "/home/user/.cache/mapsims/hitmap_ST2.fits".data) ∧
    (∀ e ∈ notebookFileEvents "sa" "ST2" "UHF1" 512
        "/home/user/.cache/mapsims/hitmap_ST2.fits".data,
      releaseRoot <+: e.path → e.kind = FSKind.read) :=
  ⟨by decide,
   C7_release_tree_accessed_read_only "sa" "ST2" "UHF1" 512
     "/home/user/.cache/mapsims/hitmap_ST2.fits".data (by decide)⟩

/-- C8: the notebook read loop intercepts nothing: when the library
raises on some file after succeeding on the files before it, the cell
result is that very error, and conversely every error a cell returns is
the unchanged error the library raised on one of the requested files. -/
theorem C8_library_errors_propagate_unchanged
    (fs : List Char → Except String (List ℚ)) (pre post : List (List Char))
    (p : List Char) (e : String)
    (hpre : ∀ q ∈ pre, ∃ v, fs q = Except.ok v) (hp : fs p = Except.error e) :
    readAllMaps fs (pre ++ p :: post) = Except.error e ∧
    ∀ (paths : List (List Char)) (e2 : String),
      readAllMaps fs paths = Except.error e2 → ∃ q ∈ paths, fs q = Except.error e2 := by
  constructor
  · induction pre with
    | nil => simp [readAllMaps, read_map, hp]
    | cons q pre ih =>
      rcases hpre q (List.mem_cons_self _ _) with ⟨v, hv⟩
      have htail := ih fun r hr => hpre r (List.mem_cons_of_mem _ hr)
      simp [readAllMaps, read_map, hv, htail]
  · intro paths
    induction paths with
    | nil => intro e2 h2; simp [readAllMaps] at h2
    | cons q rest ih =>
      intro e2 h2
      rcases hfq : fs q with e3 | v
      · rw [readAllMaps, read_map, hfq] at h2
        simp at h2
        exact ⟨q, List.mem_cons_self _ _, by rw [hfq, h2]⟩
      · rw [readAllMaps, read_map, hfq] at h2
        rcases hrest : readAllMaps fs rest with e3 | vs
        · rw [hrest] at h2
          simp at h2
          rcases ih e3 hrest with ⟨r, hr, hfr⟩
          exact ⟨r, List.mem_cons_of_mem _ hr, by rw [hfr, h2]⟩
        · rw [hrest] at h2
          simp at h2

/-- Witness for C8 with a filesystem on which every read raises. -/
theorem C8_library_errors_propagate_unchanged_witness :
    (∀ q ∈ ([] : List (List Char)), ∃ v,
      (fun _ : List Char => (Except.error "file not found" : Except String (List ℚ))) q =
        Except.ok v) ∧
    ((fun _ : List Char => (Except.error "file not found" : Except String (List ℚ)))
      "/missing.fits".data = Except.error "file not found") ∧
    (readAllMaps (fun _ => Except.error "file not found")
        ([] ++ "/missing.fits".data :: []) = Except.error "file not found" ∧
    ∀ (paths : List (List Char)) (e2 : String),
      readAllMaps (fun _ => Except.error "file not found") paths = Except.error e2 →
        ∃ q ∈ paths, (fun _ : List Char =>
          (Except.error "file not found" : Except String (List ℚ))) q =
            Except.error e2) :=
  ⟨by simp, rfl,
   C8_library_errors_propagate_unchanged (fun _ => Except.error "file not found")
     [] [] "/missing.fits".data "file not found" (by simp) rfl⟩

end Mapsims
